import Mathlib

/-!
Shallow embedding of the room-coordination logic of `src/pages/RoomPage.jsx`.

The page keeps per-client React state (`room`, `phase`, `playersCount`), a
tab-unique `clientId`, and an effect-local `introTimeout` handle.  Its event
handlers are:

* the initial point read of the `rooms` row (`init`, lines 36-53);
* the presence `sync` handler (lines 62-85), which counts the present client
  ids and, when the cached room is `waiting` and quorum is met, lets the
  client with the lexicographically smallest id issue the update that sets
  `status` to `started`;
* the `postgres_changes` handler (lines 88-114), which caches the new row and
  drives the phase machine `waiting → intro → rules`;
* the `setTimeout` callback (5000 ms) that moves `intro → rules`.

We model the client as a state record plus one function per handler; each
handler returns the new state and the list of row updates it issues.  Pending
`setTimeout` callbacks are modelled as a list of live timers (scheduling
appends a timer with a fresh id, `clearTimeout` removes by id, firing removes
the fired timer), with `introTimeout` holding the handle variable, so that
"how many timers are outstanding" is observable in the model.
-/

namespace Alice

/-- A row of the `rooms` table, as selected by the full-row point read: the coordination
fields `id`, `status`, `required_players` and the display content fields read
by the page (`game_title`, `suit`, `game_name`, `rules`). -/
structure RoomRecord where
  id : String
  status : String
  required_players : Nat
  game_title : String
  suit : String
  game_name : String
  rules : String
deriving DecidableEq, Repr

/-- A scheduled, not-yet-fired, not-cancelled `setTimeout` callback.  Every
timeout in the page is scheduled with delay 5000 ms and its callback sets
the phase to `rules`. -/
structure Timer where
  id : Nat
  delayMs : Nat
deriving DecidableEq, Repr

/-- The client-local state of one `RoomPage` instance: the cached room row
(`room` / `roomRef`), the display `phase` (`waiting`/`intro`/`rules`), the
observable `playersCount`, the `introTimeout` handle variable, the multiset of
live timers, and a counter supplying fresh timer ids. -/
structure ClientState where
  room : Option RoomRecord
  phase : String
  playersCount : Nat
  introTimeout : Option Nat
  liveTimers : List Timer
  nextTimerId : Nat
deriving DecidableEq, Repr

/-- State at mount: no cached room, phase `waiting`, no timer. -/
def initialState : ClientState :=
  { room := none, phase := "waiting", playersCount := 0,
    introTimeout := none, liveTimers := [], nextTimerId := 0 }

/-- The field set passed to `update(...)`: `none` means the field is absent
from the payload and hence untouched by the write. -/
structure UpdatePayload where
  status : Option String
  required_players : Option Nat
  game_title : Option String
  suit : Option String
  game_name : Option String
  rules : Option String
deriving DecidableEq, Repr

/-- A row update request: target table, field set, and the primary-key filter
(equality of the id column with the room id is the only predicate the page
ever attaches). -/
structure UpdateReq where
  table : String
  payload : UpdatePayload
  filter_id : String
deriving DecidableEq, Repr

/-- The payload of the quorum write: it contains only the `status` field,
set to `started`. -/
def startedPayload : UpdatePayload := ⟨some "started", none, none, none, none, none⟩

/-- The one update the page can issue: on table `rooms`, set `status` to
`started`, filtered by the room id. -/
def startUpdate (roomId : String) : UpdateReq := ⟨"rooms", startedPayload, roomId⟩

/-- Effect of a payload on a row: each present field overwrites, absent fields
are kept. -/
def applyPayload (p : UpdatePayload) (r : RoomRecord) : RoomRecord :=
  { id := r.id
    status := p.status.getD r.status
    required_players := p.required_players.getD r.required_players
    game_title := p.game_title.getD r.game_title
    suit := p.suit.getD r.suit
    game_name := p.game_name.getD r.game_name
    rules := p.rules.getD r.rules }

/-- Effect of an update request on a row: the payload applies exactly when the
primary key of the row matches the filter; no other predicate is evaluated. -/
def applyUpdate (u : UpdateReq) (r : RoomRecord) : RoomRecord :=
  if r.id = u.filter_id then applyPayload u.payload r else r

/-- `clearTimeout(introTimeout)` guarded by `if (introTimeout)`: with a null
handle nothing happens, otherwise the timer with that id is descheduled. -/
def clearTimeout (h : Option Nat) (l : List Timer) : List Timer :=
  match h with
  | none => l
  | some tid => l.filter (fun t => t.id ≠ tid)

/-- The `setTimeout` call of the page: schedules a fresh 5000 ms timer whose
callback sets the phase to `rules`, and stores its handle. -/
def schedule5s (s : ClientState) : ClientState :=
  { s with introTimeout := some s.nextTimerId
           liveTimers := s.liveTimers ++ [⟨s.nextTimerId, 5000⟩]
           nextTimerId := s.nextTimerId + 1 }

/-- The `init` body (lines 36-53): the single point read of the room.  On a
read error it logs and returns — the realtime channel is then never created,
so no presence or change handler ever runs (the `Bool` result records whether
the channel got set up).  On success the row is cached and, if its status is
already `started`, phase becomes `intro` and the 5 s timer is scheduled. -/
def initLoad (res : Except String RoomRecord) (s : ClientState) : ClientState × Bool :=
  match res with
  | .error _ => (s, false)
  | .ok data =>
    let s1 := { s with room := some data }
    if data.status = "started" then ({ schedule5s s1 with phase := "intro" }, true)
    else (s1, true)

/-- The presence `sync` handler (lines 62-85).  `ids` are the presence-state
keys (the client ids of all present players).  The player count is always
updated; if no room row is cached yet the handler returns.  Otherwise, when
the cached status is `waiting` and the count reaches `required_players`, the
snapshot is sorted (`[...ids].sort()[0]`) and only the client whose own id is
the smallest issues the update setting `status` to `started`. -/
def presenceSync (clientId roomId : String) (ids : List String) (s : ClientState) :
    ClientState × List UpdateReq :=
  let count := ids.length
  let s1 := { s with playersCount := count }
  match s1.room with
  | none => (s1, [])
  | some r =>
    if r.status = "waiting" ∧ r.required_players ≤ count then
      if (ids.mergeSort).head? = some clientId then
        (s1, [startUpdate roomId])
      else (s1, [])
    else (s1, [])

/-- The `postgres_changes` handler (lines 88-114): cache the new row; if the
new status is `started` and the phase is neither `intro` nor `rules`, enter
`intro`, clear any pending timeout and schedule a fresh 5 s one; if the new
status is `waiting`, set phase `waiting` (note: this branch does not touch the
timeout). -/
def statusChange (newRoom : RoomRecord) (s : ClientState) : ClientState :=
  let s1 := { s with room := some newRoom }
  let s2 :=
    if newRoom.status = "started" ∧ s1.phase ≠ "intro" ∧ s1.phase ≠ "rules" then
      { schedule5s { s1 with liveTimers := clearTimeout s1.introTimeout s1.liveTimers } with
          phase := "intro" }
    else s1
  if newRoom.status = "waiting" then { s2 with phase := "waiting" } else s2

/-- Elapse of a scheduled timeout `tid`: if it is still live (not cancelled,
not yet fired) its callback runs, setting the phase to `rules`, and the
timer is spent;
otherwise nothing happens. -/
def timerFire (tid : Nat) (s : ClientState) : ClientState :=
  if s.liveTimers.any (fun t => t.id = tid) then
    { s with phase := "rules", liveTimers := s.liveTimers.filter (fun t => t.id ≠ tid) }
  else s

/-- The events a mounted page can receive after `init`: a presence sync with a
snapshot of present ids, a `postgres_changes` notification carrying the new
row, or the elapse of timeout `tid`. -/
inductive REvent where
  | presence (ids : List String)
  | change (newRoom : RoomRecord)
  | fire (tid : Nat)
deriving DecidableEq, Repr

/-- Dispatch of one event to its handler, collecting issued updates. -/
def stepEvent (clientId roomId : String) (e : REvent) (s : ClientState) :
    ClientState × List UpdateReq :=
  match e with
  | .presence ids => presenceSync clientId roomId ids s
  | .change newRoom => (statusChange newRoom s, [])
  | .fire tid => (timerFire tid s, [])

/-- Serialized delivery of a list of events (the callbacks of the page never run
concurrently within one client). -/
def runEvents (clientId roomId : String) (evs : List REvent) (s : ClientState) :
    ClientState × List UpdateReq :=
  match evs with
  | [] => (s, [])
  | e :: rest =>
    let p := stepEvent clientId roomId e s
    let q := runEvents clientId roomId rest p.1
    (q.1, p.2 ++ q.2)

/-- A whole client lifetime: the initial read, then — only if the read
succeeded, since otherwise the channel is never created — any sequence of
presence / change / timer events. -/
def runClient (clientId roomId : String) (res : Except String RoomRecord)
    (evs : List REvent) : ClientState × List UpdateReq :=
  let p := initLoad res initialState
  if p.2 then runEvents clientId roomId evs p.1 else (p.1, [])

/-- A state is reachable for a client when some lifetime produces it. -/
def Reachable (clientId roomId : String) (s : ClientState) : Prop :=
  ∃ res evs, (runClient clientId roomId res evs).1 = s

/-- The timer discipline the page maintains: at most one live timeout, it is
the one the `introTimeout` handle points at, and its delay is 5000 ms. -/
abbrev TimerInv (s : ClientState) : Prop :=
  s.liveTimers.length ≤ 1 ∧ ∀ t ∈ s.liveTimers, s.introTimeout = some t.id ∧ t.delayMs = 5000

/-! ### Concrete fixtures used by witnesses and counterexamples -/

/-- A two-player room that is still waiting. -/
def wroom : RoomRecord := ⟨"r1", "waiting", 2, "title", "spades", "name", "some rules text"⟩

/-- The same room after the status flip. -/
def sroom : RoomRecord := { wroom with status := "started" }

/-- A freshly mounted client that has cached `wroom`. -/
def sW : ClientState := { initialState with room := some wroom }

/-! ### Helper lemmas -/

/-- The head of the sorted snapshot is exactly its lexicographically smallest
element. -/
theorem mergeSort_head_min (ids : List String) (x : String) :
    (ids.mergeSort).head? = some x ↔ x ∈ ids ∧ ∀ y ∈ ids, x ≤ y := by
  have hperm : List.Perm ids.mergeSort ids := List.mergeSort_perm ids _
  have hsort : List.Sorted (· ≤ ·) ids.mergeSort := List.sorted_mergeSort' ids
  constructor
  · intro h
    match hm : ids.mergeSort with
    | [] => rw [hm] at h; simp at h
    | a :: t =>
      rw [hm] at h
      simp only [List.head?_cons, Option.some.injEq] at h
      rw [hm] at hperm hsort
      subst h
      have hmem : a ∈ ids := hperm.mem_iff.mp (List.mem_cons_self a t)
      refine ⟨hmem, ?_⟩
      intro y hy
      have hy' : y ∈ a :: t := hperm.mem_iff.mpr hy
      rcases List.mem_cons.mp hy' with rfl | hyt
      · exact le_refl _
      · exact (List.sorted_cons.mp hsort).1 y hyt
  · rintro ⟨hx, hmin⟩
    match hm : ids.mergeSort with
    | [] =>
      rw [hm] at hperm
      rw [hperm.symm.eq_nil] at hx
      simp at hx
    | a :: t =>
      rw [hm] at hperm hsort
      have ha : a ∈ ids := hperm.mem_iff.mp (List.mem_cons_self a t)
      have hax : x ≤ a := hmin a ha
      have hxa : a ≤ x := by
        have hx' : x ∈ a :: t := hperm.mem_iff.mpr hx
        rcases List.mem_cons.mp hx' with rfl | hxt
        · exact le_refl _
        · exact (List.sorted_cons.mp hsort).1 x hxt
      rw [hm]
      simp [le_antisymm hxa hax]

/-- The presence handler only ever changes `playersCount` in the state. -/
theorem presenceSync_fst (clientId roomId : String) (ids : List String) (s : ClientState) :
    (presenceSync clientId roomId ids s).1 = { s with playersCount := ids.length } := by
  unfold presenceSync
  cases hr : s.room with
  | none => simp only [hr]
  | some r =>
    simp only [hr]
    split
    · split <;> rfl
    · rfl

/-- With no cached room the presence handler only updates the count. -/
theorem presenceSync_no_room (clientId roomId : String) (ids : List String) (s : ClientState)
    (hnone : s.room = none) :
    presenceSync clientId roomId ids s = ({ s with playersCount := ids.length }, []) := by
  unfold presenceSync
  simp only [hnone]

/-- With a cached room but the guard `status == waiting && count >= required`
failing, the presence handler only updates the count. -/
theorem presenceSync_skip (clientId roomId : String) (ids : List String) (s : ClientState)
    (r : RoomRecord) (hr : s.room = some r)
    (h : ¬(r.status = "waiting" ∧ r.required_players ≤ ids.length)) :
    presenceSync clientId roomId ids s = ({ s with playersCount := ids.length }, []) := by
  unfold presenceSync
  simp only [hr]
  rw [if_neg h]

/-- Quorum met while waiting, and the local client is the smallest id in the
snapshot: the handler issues exactly the `status: started` update. -/
theorem presenceSync_writes (clientId roomId : String) (ids : List String) (s : ClientState)
    (r : RoomRecord) (hr : s.room = some r) (hw : r.status = "waiting")
    (hq : r.required_players ≤ ids.length)
    (hmin : clientId ∈ ids ∧ ∀ y ∈ ids, clientId ≤ y) :
    presenceSync clientId roomId ids s =
      ({ s with playersCount := ids.length }, [startUpdate roomId]) := by
  unfold presenceSync
  simp only [hr]
  rw [if_pos ⟨hw, hq⟩, if_pos ((mergeSort_head_min ids clientId).mpr hmin)]

/-- Quorum met while waiting, but the local client is not the smallest id: the
handler stays silent. -/
theorem presenceSync_silent (clientId roomId : String) (ids : List String) (s : ClientState)
    (r : RoomRecord) (hr : s.room = some r) (hw : r.status = "waiting")
    (hq : r.required_players ≤ ids.length)
    (hmin : ¬(clientId ∈ ids ∧ ∀ y ∈ ids, clientId ≤ y)) :
    presenceSync clientId roomId ids s = ({ s with playersCount := ids.length }, []) := by
  unfold presenceSync
  simp only [hr]
  rw [if_pos ⟨hw, hq⟩,
    if_neg (fun hc => hmin ((mergeSort_head_min ids clientId).mp hc))]

/-- Every update the presence handler can emit is the `started` write for this
room. -/
theorem presenceSync_snd_sub (clientId roomId : String) (ids : List String) (s : ClientState)
    (u : UpdateReq) (hu : u ∈ (presenceSync clientId roomId ids s).2) :
    u = startUpdate roomId := by
  unfold presenceSync at hu
  cases hr : s.room with
  | none => simp only [hr] at hu; simp at hu
  | some r =>
    simp only [hr] at hu
    split at hu
    · split at hu
      · simpa using hu
      · simp at hu
    · simp at hu

/-- Under the invariant, `clearTimeout(introTimeout)` deschedules everything. -/
theorem clearTimeout_self (s : ClientState) (h : TimerInv s) :
    clearTimeout s.introTimeout s.liveTimers = [] := by
  obtain ⟨hlen, hall⟩ := h
  cases hl : s.liveTimers with
  | nil => cases s.introTimeout <;> simp [clearTimeout]
  | cons t rest =>
    have hrest : rest = [] := by
      rw [hl] at hlen
      simpa using hlen
    subst hrest
    have ht := hall t (by rw [hl]; exact List.mem_cons_self t [])
    rw [ht.1]
    simp [clearTimeout]

theorem timerInv_presenceSync (clientId roomId : String) (ids : List String)
    (s : ClientState) (h : TimerInv s) :
    TimerInv (presenceSync clientId roomId ids s).1 := by
  rw [presenceSync_fst]
  exact h

theorem timerInv_statusChange (newRoom : RoomRecord) (s : ClientState) (h : TimerInv s) :
    TimerInv (statusChange newRoom s) := by
  have hclear := clearTimeout_self s h
  obtain ⟨hlen, hall⟩ := h
  unfold statusChange schedule5s
  dsimp only
  split
  · split
    · refine ⟨?_, ?_⟩
      · rw [hclear]; simp
      · intro t ht
        rw [hclear] at ht
        simp only [List.nil_append, List.mem_singleton] at ht
        subst ht
        exact ⟨rfl, rfl⟩
    · exact ⟨hlen, hall⟩
  · split
    · refine ⟨?_, ?_⟩
      · rw [hclear]; simp
      · intro t ht
        rw [hclear] at ht
        simp only [List.nil_append, List.mem_singleton] at ht
        subst ht
        exact ⟨rfl, rfl⟩
    · exact ⟨hlen, hall⟩

theorem timerInv_timerFire (tid : Nat) (s : ClientState) (h : TimerInv s) :
    TimerInv (timerFire tid s) := by
  obtain ⟨hlen, hall⟩ := h
  unfold timerFire
  split
  · refine ⟨?_, ?_⟩
    · exact le_trans (List.length_filter_le _ _) hlen
    · intro t ht
      exact hall t (List.mem_of_mem_filter ht)
  · exact ⟨hlen, hall⟩

theorem timerInv_initLoad (res : Except String RoomRecord) :
    TimerInv (initLoad res initialState).1 := by
  cases res with
  | error e =>
    refine ⟨by simp [initLoad, initialState], ?_⟩
    intro t ht
    simp [initLoad, initialState] at ht
  | ok data =>
    unfold initLoad
    dsimp only
    split
    · refine ⟨by simp [schedule5s, initialState], ?_⟩
      intro t ht
      simp only [schedule5s, initialState, List.nil_append, List.mem_singleton] at ht
      subst ht
      exact ⟨rfl, rfl⟩
    · refine ⟨by simp [initialState], ?_⟩
      intro t ht
      simp [initialState] at ht

theorem timerInv_runEvents (clientId roomId : String) (evs : List REvent) (s : ClientState)
    (h : TimerInv s) : TimerInv (runEvents clientId roomId evs s).1 := by
  induction evs generalizing s with
  | nil => exact h
  | cons e rest ih =>
    dsimp only [runEvents]
    apply ih
    cases e with
    | presence ids => exact timerInv_presenceSync clientId roomId ids s h
    | change newRoom => exact timerInv_statusChange newRoom s h
    | fire tid => exact timerInv_timerFire tid s h

/-- Every reachable client state satisfies the timer discipline. -/
theorem timerInv_reachable (clientId roomId : String) (s : ClientState)
    (h : Reachable clientId roomId s) : TimerInv s := by
  obtain ⟨res, evs, hrun⟩ := h
  subst hrun
  unfold runClient
  dsimp only
  split
  · exact timerInv_runEvents clientId roomId evs _ (timerInv_initLoad res)
  · exact timerInv_initLoad res

/-- Every update a whole event sequence can emit is the `started` write. -/
theorem runEvents_updates (clientId roomId : String) (evs : List REvent) :
    ∀ s u, u ∈ (runEvents clientId roomId evs s).2 → u = startUpdate roomId := by
  induction evs with
  | nil => intro s u hu; simp [runEvents] at hu
  | cons e rest ih =>
    intro s u hu
    dsimp only [runEvents] at hu
    rw [List.mem_append] at hu
    rcases hu with hu | hu
    · cases e with
      | presence ids => exact presenceSync_snd_sub clientId roomId ids s u hu
      | change newRoom => simp [stepEvent] at hu
      | fire tid => simp [stepEvent] at hu
    · exact ih _ u hu

/-- Every update a whole client lifetime can emit is the `started` write. -/
theorem runClient_updates (clientId roomId : String) (res : Except String RoomRecord)
    (evs : List REvent) (u : UpdateReq) (hu : u ∈ (runClient clientId roomId res evs).2) :
    u = startUpdate roomId := by
  unfold runClient at hu
  dsimp only at hu
  split at hu
  · exact runEvents_updates clientId roomId evs _ u hu
  · simp at hu

/-- Shape of the change handler on a `started` notification received in a
phase other than `intro`/`rules` (given the timer discipline): one fresh
5-second timer replaces whatever was pending. -/
theorem statusChange_started_new (newRoom : RoomRecord) (s : ClientState)
    (hst : newRoom.status = "started") (h1 : s.phase ≠ "intro") (h2 : s.phase ≠ "rules")
    (hclear : clearTimeout s.introTimeout s.liveTimers = []) :
    statusChange newRoom s =
      { room := some newRoom, phase := "intro", playersCount := s.playersCount,
        introTimeout := some s.nextTimerId, liveTimers := [⟨s.nextTimerId, 5000⟩],
        nextTimerId := s.nextTimerId + 1 } := by
  unfold statusChange schedule5s
  dsimp only
  rw [hst]
  rw [if_neg (by decide : ¬("started" : String) = "waiting")]
  rw [if_pos ⟨rfl, h1, h2⟩]
  rw [hclear]
  rw [List.nil_append]

/-- Shape of the change handler on a `started` notification received while
already in `intro` or `rules`: only the cached row changes. -/
theorem statusChange_started_old (newRoom : RoomRecord) (s : ClientState)
    (hst : newRoom.status = "started") (h : s.phase = "intro" ∨ s.phase = "rules") :
    statusChange newRoom s = { s with room := some newRoom } := by
  unfold statusChange
  dsimp only
  rw [hst]
  rw [if_neg (by decide : ¬("started" : String) = "waiting")]
  rw [if_neg (fun hc => by rcases h with h | h <;> [exact hc.2.1 h; exact hc.2.2 h])]

/-- Shape of the change handler on a `waiting` notification: the cached row
and the phase change, nothing else — in particular the timers stay. -/
theorem statusChange_waiting (newRoom : RoomRecord) (s : ClientState)
    (hw : newRoom.status = "waiting") :
    statusChange newRoom s = { s with room := some newRoom, phase := "waiting" } := by
  unfold statusChange
  dsimp only
  rw [hw]
  rw [if_pos rfl]
  rw [if_neg (fun hc => absurd hc.1 (by decide))]

/-- A live timer fires: the phase becomes `rules`. -/
theorem timerFire_live (tid : Nat) (s : ClientState)
    (h : ∃ t ∈ s.liveTimers, t.id = tid) : (timerFire tid s).phase = "rules" := by
  have hany : (s.liveTimers.any fun t => decide (t.id = tid)) = true := by
    rw [List.any_eq_true]
    obtain ⟨t, ht, htid⟩ := h
    exact ⟨t, ht, by simp [htid]⟩
  unfold timerFire
  rw [if_pos hany]

/-- A concrete string comparison used by the witnesses ("aaa" precedes
"bbb"). -/
theorem aaa_le_bbb : ("aaa" : String) ≤ "bbb" := by
  rw [String.le_iff_toList_le]
  decide

/-! ### The claims -/

/-- C1: for a snapshot whose size reaches `required_players`, received while
the cached room status is `waiting`, the presence handler issues the
status-setting update exactly on the client whose identity is the
lexicographically smallest element of the snapshot, and issues nothing on
every client whose identity is not the smallest. -/
theorem quorum_write_iff_smallest (clientId roomId : String) (ids : List String)
    (s : ClientState) (r : RoomRecord) (hr : s.room = some r)
    (hw : r.status = "waiting") (hq : r.required_players ≤ ids.length) :
    ((presenceSync clientId roomId ids s).2 = [startUpdate roomId] ↔
      clientId ∈ ids ∧ ∀ y ∈ ids, clientId ≤ y) ∧
    ((presenceSync clientId roomId ids s).2 = [] ↔
      ¬(clientId ∈ ids ∧ ∀ y ∈ ids, clientId ≤ y)) := by
  by_cases hmin : clientId ∈ ids ∧ ∀ y ∈ ids, clientId ≤ y
  · rw [presenceSync_writes clientId roomId ids s r hr hw hq hmin]
    dsimp only
    exact ⟨⟨fun _ => hmin, fun _ => rfl⟩,
      ⟨fun hc => absurd hc (by simp), fun hn => absurd hmin hn⟩⟩
  · rw [presenceSync_silent clientId roomId ids s r hr hw hq hmin]
    dsimp only
    exact ⟨⟨fun hc => absurd hc.symm (by simp), fun hm => absurd hm hmin⟩,
      ⟨fun _ => hmin, fun _ => rfl⟩⟩

/-- C1 witness: in the waiting two-player room, for snapshot
`["bbb", "aaa"]` the client `"aaa"` is the smallest; the characterization is
applied at this concrete input. -/
theorem quorum_write_iff_smallest_witness :
    ((presenceSync "aaa" "r1" ["bbb", "aaa"] sW).2 = [startUpdate "r1"] ↔
      "aaa" ∈ (["bbb", "aaa"] : List String) ∧
        ∀ y ∈ (["bbb", "aaa"] : List String), "aaa" ≤ y) ∧
    ((presenceSync "aaa" "r1" ["bbb", "aaa"] sW).2 = [] ↔
      ¬("aaa" ∈ (["bbb", "aaa"] : List String) ∧
        ∀ y ∈ (["bbb", "aaa"] : List String), "aaa" ≤ y)) :=
  quorum_write_iff_smallest "aaa" "r1" ["bbb", "aaa"] sW wroom rfl rfl (by decide)

/-- C5: a snapshot received while the cached status is not `waiting`, or
whose size is below `required_players`, produces no update; the handler only
refreshes the player count, so the phase is untouched. -/
theorem no_quorum_no_write (clientId roomId : String) (ids : List String)
    (s : ClientState) (r : RoomRecord) (hr : s.room = some r)
    (h : r.status ≠ "waiting" ∨ ids.length < r.required_players) :
    (presenceSync clientId roomId ids s).2 = [] ∧
    (presenceSync clientId roomId ids s).1 = { s with playersCount := ids.length } := by
  have hng : ¬(r.status = "waiting" ∧ r.required_players ≤ ids.length) := by
    rcases h with h | h
    · exact fun hc => h hc.1
    · exact fun hc => absurd hc.2 (by omega)
  rw [presenceSync_skip clientId roomId ids s r hr hng]
  exact ⟨rfl, rfl⟩

/-- C5 witness: a single client in the waiting two-player room issues no
write; only the count changes, and the phase of `sW` is `waiting`. -/
theorem no_quorum_no_write_witness :
    ((presenceSync "aaa" "r1" ["aaa"] sW).2 = [] ∧
      (presenceSync "aaa" "r1" ["aaa"] sW).1 = { sW with playersCount := 1 }) ∧
    sW.phase = "waiting" :=
  ⟨no_quorum_no_write "aaa" "r1" ["aaa"] sW wroom rfl (Or.inr (by decide)), rfl⟩

/-- C10: a presence sync that arrives while no room row is cached yet updates
the observable player count to the snapshot size and does nothing else — in
particular no update is issued. -/
theorem presence_before_load_counts_only (clientId roomId : String) (ids : List String)
    (s : ClientState) (hnone : s.room = none) :
    (presenceSync clientId roomId ids s).1 = { s with playersCount := ids.length } ∧
    (presenceSync clientId roomId ids s).2 = [] := by
  rw [presenceSync_no_room clientId roomId ids s hnone]
  exact ⟨rfl, rfl⟩

/-- C10 witness: at the freshly mounted state (no cached room) a two-member
snapshot only sets the count to 2. -/
theorem presence_before_load_counts_only_witness :
    (presenceSync "aaa" "r1" ["aaa", "bbb"] initialState).1 =
      { initialState with playersCount := 2 } ∧
    (presenceSync "aaa" "r1" ["aaa", "bbb"] initialState).2 = [] :=
  presence_before_load_counts_only "aaa" "r1" ["aaa", "bbb"] initialState rfl

/-- C8: when the initial room read fails, the client stays inert in phase
`waiting` for that room whatever events would have followed: the room cache
stays empty, no timer is ever scheduled, the phase never becomes `intro` or
`rules`, and no update is ever attempted. -/
theorem load_failure_inert (clientId roomId e : String) (evs : List REvent) :
    (runClient clientId roomId (.error e) evs).1.phase = "waiting" ∧
    (runClient clientId roomId (.error e) evs).1.room = none ∧
    (runClient clientId roomId (.error e) evs).1.liveTimers = [] ∧
    (runClient clientId roomId (.error e) evs).2 = [] :=
  ⟨rfl, rfl, rfl, rfl⟩

/-- C2 counterexample: from the waiting room, a `started` notification
schedules the intro timer (id 0); a following `waiting` notification resets
the phase but leaves that timer live, and when the timer then elapses the
phase becomes `rules` — so the claimed cancellation does not happen. -/
theorem waiting_reset_keeps_timer_cex :
    (runClient "aaa" "r1" (.ok wroom) [.change sroom, .change wroom]).1.phase = "waiting" ∧
    (runClient "aaa" "r1" (.ok wroom) [.change sroom, .change wroom]).1.liveTimers =
      [⟨0, 5000⟩] ∧
    (runClient "aaa" "r1" (.ok wroom) [.change sroom, .change wroom, .fire 0]).1.phase =
      "rules" :=
  ⟨rfl, rfl, rfl⟩

/-- C2 amended: an incoming `waiting` notification sets the phase to
`waiting` from any phase, but does not cancel a pending intro-to-rules
timer: the live timers and the timeout handle are exactly those from before
the notification, and a timer that was pending still fires the move to
`rules`. -/
theorem waiting_reset_keeps_timer (newRoom : RoomRecord) (s : ClientState)
    (hw : newRoom.status = "waiting") :
    (statusChange newRoom s).phase = "waiting" ∧
    (statusChange newRoom s).liveTimers = s.liveTimers ∧
    (statusChange newRoom s).introTimeout = s.introTimeout ∧
    ∀ t ∈ s.liveTimers, (timerFire t.id (statusChange newRoom s)).phase = "rules" := by
  rw [statusChange_waiting newRoom s hw]
  refine ⟨rfl, rfl, rfl, ?_⟩
  intro t ht
  exact timerFire_live t.id _ ⟨t, ht, rfl⟩

/-- C2 amended witness: the `waiting` room row received in the state reached
after `started` (phase `intro`, timer 0 pending). -/
theorem waiting_reset_keeps_timer_witness :
    (statusChange wroom (statusChange sroom sW)).phase = "waiting" ∧
    (statusChange wroom (statusChange sroom sW)).liveTimers =
      (statusChange sroom sW).liveTimers ∧
    (statusChange wroom (statusChange sroom sW)).introTimeout =
      (statusChange sroom sW).introTimeout ∧
    ∀ t ∈ (statusChange sroom sW).liveTimers,
      (timerFire t.id (statusChange wroom (statusChange sroom sW))).phase = "rules" :=
  waiting_reset_keeps_timer wroom (statusChange sroom sW) rfl

/-- C3: given the timer discipline of reachable states, a `started`
notification in a phase other than `intro`/`rules` moves the phase to
`intro` and leaves exactly one live timer — a fresh 5-second one whose
elapse fires the `intro → rules` move; a `started` notification received in
phase `intro` or `rules` leaves the phase, the live timers and the timeout
handle unchanged (the timer is neither reset nor duplicated). -/
theorem started_notification_single_timer (clientId roomId : String)
    (newRoom : RoomRecord) (s : ClientState) (hreach : Reachable clientId roomId s)
    (hst : newRoom.status = "started") :
    (s.phase ≠ "intro" ∧ s.phase ≠ "rules" →
      (statusChange newRoom s).phase = "intro" ∧
      (statusChange newRoom s).liveTimers = [⟨s.nextTimerId, 5000⟩] ∧
      (timerFire s.nextTimerId (statusChange newRoom s)).phase = "rules") ∧
    ((s.phase = "intro" ∨ s.phase = "rules") →
      (statusChange newRoom s).phase = s.phase ∧
      (statusChange newRoom s).liveTimers = s.liveTimers ∧
      (statusChange newRoom s).introTimeout = s.introTimeout) := by
  have hclear := clearTimeout_self s (timerInv_reachable clientId roomId s hreach)
  constructor
  · rintro ⟨h1, h2⟩
    rw [statusChange_started_new newRoom s hst h1 h2 hclear]
    refine ⟨rfl, rfl, ?_⟩
    exact timerFire_live s.nextTimerId _ ⟨⟨s.nextTimerId, 5000⟩, by simp, rfl⟩
  · intro h
    rw [statusChange_started_old newRoom s hst h]
    exact ⟨rfl, rfl, rfl⟩

/-- C3 witness: applied in the reachable waiting-phase state `sW` (the state
after loading the waiting room) on the `started` row. -/
theorem started_notification_single_timer_witness :
    (sW.phase ≠ "intro" ∧ sW.phase ≠ "rules" →
      (statusChange sroom sW).phase = "intro" ∧
      (statusChange sroom sW).liveTimers = [⟨sW.nextTimerId, 5000⟩] ∧
      (timerFire sW.nextTimerId (statusChange sroom sW)).phase = "rules") ∧
    ((sW.phase = "intro" ∨ sW.phase = "rules") →
      (statusChange sroom sW).phase = sW.phase ∧
      (statusChange sroom sW).liveTimers = sW.liveTimers ∧
      (statusChange sroom sW).introTimeout = sW.introTimeout) :=
  started_notification_single_timer "aaa" "r1" sroom sW ⟨.ok wroom, [], rfl⟩ rfl

/-- C4: when the initial read returns a room already `started`, the client
enters `intro` immediately with the 5-second timer scheduled, and that timer
elapsing moves it to `rules`; no initial read can put a client directly into
`rules`. -/
theorem rejoin_mid_round_intro (clientId roomId : String) (data : RoomRecord)
    (hst : data.status = "started") :
    ((runClient clientId roomId (.ok data) []).1.phase = "intro" ∧
     (runClient clientId roomId (.ok data) []).1.liveTimers = [⟨0, 5000⟩] ∧
     (runClient clientId roomId (.ok data) [.fire 0]).1.phase = "rules") ∧
    ∀ res : Except String RoomRecord, (runClient clientId roomId res []).1.phase ≠ "rules" := by
  have hload : initLoad (.ok data) initialState =
      ({ room := some data, phase := "intro", playersCount := 0,
         introTimeout := some 0, liveTimers := [⟨0, 5000⟩], nextTimerId := 1 }, true) := by
    unfold initLoad schedule5s initialState
    dsimp only
    rw [hst]
    rw [if_pos rfl]
    rfl
  constructor
  · refine ⟨?_, ?_, ?_⟩
    · unfold runClient
      rw [hload]
      rfl
    · unfold runClient
      rw [hload]
      rfl
    · unfold runClient
      rw [hload]
      simp [runEvents, stepEvent, timerFire]
  · intro res
    cases res with
    | error e => simp [runClient, initLoad, initialState, runEvents]
    | ok d =>
      unfold runClient initLoad
      dsimp only
      split
      · simp [runEvents, schedule5s, initialState]
      · simp [runEvents, initialState]

/-- C4 witness: loading the concrete `started` room. -/
theorem rejoin_mid_round_intro_witness :
    (((runClient "aaa" "r1" (.ok sroom) []).1.phase = "intro" ∧
      (runClient "aaa" "r1" (.ok sroom) []).1.liveTimers = [⟨0, 5000⟩] ∧
      (runClient "aaa" "r1" (.ok sroom) [.fire 0]).1.phase = "rules") ∧
     ∀ res : Except String RoomRecord, (runClient "aaa" "r1" res []).1.phase ≠ "rules") :=
  rejoin_mid_round_intro "aaa" "r1" sroom rfl

/-- C7: at every point of every client lifetime, at most one intro-to-rules
timer is outstanding. -/
theorem at_most_one_timer (clientId roomId : String) (res : Except String RoomRecord)
    (evs : List REvent) :
    (runClient clientId roomId res evs).1.liveTimers.length ≤ 1 :=
  (timerInv_reachable clientId roomId _ ⟨res, evs, rfl⟩).1

/-- The concrete quorum snapshot `["aaa", "bbb"]`: `"aaa"` is present and is
the smallest element. -/
theorem aaa_smallest : ("aaa" : String) ∈ (["aaa", "bbb"] : List String) ∧
    ∀ y ∈ (["aaa", "bbb"] : List String), ("aaa" : String) ≤ y := by
  refine ⟨by simp, ?_⟩
  intro y hy
  rcases List.mem_cons.mp hy with rfl | hy
  · exact le_refl _
  · have hb : y = "bbb" := by simpa using hy
    subst hb
    exact aaa_le_bbb

/-- In the concrete two-client run the elected writer issues exactly the
`started` update. -/
theorem quorum_run_snd :
    (runClient "aaa" "r1" (.ok wroom) [.presence ["aaa", "bbb"]]).2 = [startUpdate "r1"] := by
  have h1 : runClient "aaa" "r1" (.ok wroom) [.presence ["aaa", "bbb"]] =
      runEvents "aaa" "r1" [.presence ["aaa", "bbb"]] sW := rfl
  rw [h1]
  simp only [runEvents, stepEvent]
  rw [presenceSync_writes "aaa" "r1" ["aaa", "bbb"] sW wroom rfl rfl (by decide) aaa_smallest]
  rfl

/-- C6: every update a client lifetime can ever issue carries the payload
`status: started`; therefore, applying any issued update either leaves a
status of a row unchanged or sets it to `started`, and a row that is `started`
can never be moved back. -/
theorem elector_writes_only_started (clientId roomId : String)
    (res : Except String RoomRecord) (evs : List REvent) (u : UpdateReq)
    (hu : u ∈ (runClient clientId roomId res evs).2) :
    u.payload.status = some "started" ∧
    (∀ r : RoomRecord, (applyUpdate u r).status = "started" ∨
      (applyUpdate u r).status = r.status) ∧
    ∀ r : RoomRecord, r.status = "started" → (applyUpdate u r).status = "started" := by
  have hu' := runClient_updates clientId roomId res evs u hu
  subst hu'
  refine ⟨rfl, ?_, ?_⟩
  · intro r
    unfold applyUpdate
    split
    · exact Or.inl rfl
    · exact Or.inr rfl
  · intro r hr
    unfold applyUpdate
    split
    · rfl
    · exact hr

/-- C6 witness: the update issued in the concrete two-client quorum run. -/
theorem elector_writes_only_started_witness :
    (startUpdate "r1").payload.status = some "started" ∧
    (∀ r : RoomRecord, (applyUpdate (startUpdate "r1") r).status = "started" ∨
      (applyUpdate (startUpdate "r1") r).status = r.status) ∧
    ∀ r : RoomRecord, r.status = "started" →
      (applyUpdate (startUpdate "r1") r).status = "started" :=
  elector_writes_only_started "aaa" "r1" (.ok wroom) [.presence ["aaa", "bbb"]]
    (startUpdate "r1") (by rw [quorum_run_snd]; exact List.mem_singleton.mpr rfl)

/-- C9: any update the presence handler issues targets table `rooms` with the
payload containing only the `status` field, filtered by the room id alone: a
row with the matching id gets exactly its status set to `started` (whatever
its current status — there is no predicate on it), every other field
untouched, and rows with other ids are untouched. -/
theorem update_frame_status_only (clientId roomId : String) (ids : List String)
    (s : ClientState) (u : UpdateReq)
    (hu : u ∈ (presenceSync clientId roomId ids s).2) :
    u.table = "rooms" ∧ u.filter_id = roomId ∧ u.payload = startedPayload ∧
    (∀ r : RoomRecord, r.id = roomId → applyUpdate u r = { r with status := "started" }) ∧
    ∀ r : RoomRecord, r.id ≠ roomId → applyUpdate u r = r := by
  have hu' := presenceSync_snd_sub clientId roomId ids s u hu
  subst hu'
  refine ⟨rfl, rfl, rfl, ?_, ?_⟩
  · intro r hr
    unfold applyUpdate startUpdate
    dsimp only
    rw [if_pos hr]
    rfl
  · intro r hr
    unfold applyUpdate startUpdate
    dsimp only
    rw [if_neg hr]

/-- C9 witness: the update issued by the concrete elected writer. -/
theorem update_frame_status_only_witness :
    (startUpdate "r1").table = "rooms" ∧ (startUpdate "r1").filter_id = "r1" ∧
    (startUpdate "r1").payload = startedPayload ∧
    (∀ r : RoomRecord, r.id = "r1" →
      applyUpdate (startUpdate "r1") r = { r with status := "started" }) ∧
    ∀ r : RoomRecord, r.id ≠ "r1" → applyUpdate (startUpdate "r1") r = r :=
  update_frame_status_only "aaa" "r1" ["aaa", "bbb"] sW (startUpdate "r1")
    (by rw [presenceSync_writes "aaa" "r1" ["aaa", "bbb"] sW wroom rfl rfl (by decide)
        aaa_smallest]
        exact List.mem_singleton.mpr rfl)

end Alice
